import Mathlib

/-!
Verification of the S3XY-BMS-PCB reassociation scripts.

The repository consists of two Python scripts:
  * `apply_mapping.py` — applies a hardcoded PCB-ref → (new ref, schematic uuid)
    mapping to a KiCad PCB file (function `apply_mapping`);
  * `reassociate_components.py` — parses schematic and PCB components, builds a
    positional mapping per footprint category (`create_mapping`), and patches the
    PCB file (`apply_mapping_to_pcb`).

Documents are modelled as `List Char`.  Python regexes that occur in the source
are literal or near-literal patterns; each is translated to an explicit
executable matcher.  Python `float()` parses are modelled exactly over `ℚ`
(the decimal numerals occurring in these files are represented exactly; the
source's IEEE doubles agree with the rational value on every comparison with
180 performed here).  A Python exception (a `float()` failure on a string such
as "1.2.3" drawn from the character class `[0-9.-]`) is modelled by `Option`:
`none` means the script dies with an uncaught exception.
-/

set_option maxRecDepth 100000

namespace BMS

/-- Python slice `content[s:e]`. -/
def slice (s e : Nat) (l : List Char) : List Char :=
  (l.drop s).take (e - s)

/-- Scan a list of suffixes of the text left to right; return the first
position (with the value produced by the matcher) at which `f` matches.
This is the generic shape of `re.search` for the literal-like patterns used
in the source. -/
def firstPosWhere (f : List Char → Option Nat) : List Char → Nat → Option (Nat × Nat)
  | [], _ => none
  | s@(_ :: rest), pos =>
    match f s with
    | some r => some (pos, r)
    | none => firstPosWhere f rest (pos + 1)

/-- Matcher for a literal pattern: succeeds (returning the pattern length)
when `pat` is a prefix of the text at this position. -/
def litAt (pat : List Char) (s : List Char) : Option Nat :=
  if pat.isPrefixOf s then some pat.length else none

/-- Python `content.find(pat)` restricted to success/position:
first index of a literal substring. -/
def firstIndexOf (pat s : List Char) : Option Nat :=
  (firstPosWhere (litAt pat) s 0).map (·.1)

/-- Python `pat in content` / `re.search` of a literal pattern. -/
def containsLit (pat s : List Char) : Bool :=
  (firstIndexOf pat s).isSome

/-- Python `content.rfind(pat, 0, bound)` after the caller has already taken
`content[:bound]`: last index of a literal substring. -/
def lastIndexAux (pat : List Char) : List Char → Nat → Option Nat → Option Nat
  | [], _, acc => acc
  | s@(_ :: rest), pos, acc =>
    lastIndexAux pat rest (pos + 1) (if pat.isPrefixOf s then some pos else acc)

def lastIndexOf (pat s : List Char) : Option Nat :=
  lastIndexAux pat s 0 none

/-- Python `re.sub` with a (re.escape'd) literal pattern and literal
replacement: replace all non-overlapping occurrences, left to right. -/
def replaceAllAux (pat rep : List Char) : Nat → List Char → List Char
  | 0, s => s
  | _, [] => []
  | fuel + 1, s@(c :: rest) =>
    if pat.isPrefixOf s then rep ++ replaceAllAux pat rep fuel (s.drop pat.length)
    else c :: replaceAllAux pat rep fuel rest

def replaceAll (pat rep s : List Char) : List Char :=
  replaceAllAux pat rep (s.length + 1) s

/-! ## Block scanner (`apply_mapping.py` lines 82–91, `reassociate_components.py`
lines 235–244)

The source walks forward from `block_start` counting every `(` and `)`:

    depth = 0
    block_end = block_start
    for i, char in enumerate(content[block_start:], block_start):
        if char == '(': depth += 1
        elif char == ')':
            depth -= 1
            if depth == 0: block_end = i + 1; break

There is no quote tracking and no error case: if the loop exhausts the text,
`block_end` keeps its initial value `block_start`. -/

/-- The depth-counting walk.  Returns `some (i+1)` for the first position at
which a `)` brings the signed depth to 0, `none` if the text is exhausted. -/
def scanFrom : List Char → Nat → Int → Option Nat
  | [], _, _ => none
  | c :: rest, i, depth =>
    if c = '(' then scanFrom rest (i + 1) (depth + 1)
    else if c = ')' then
      if depth - 1 = 0 then some (i + 1) else scanFrom rest (i + 1) (depth - 1)
    else scanFrom rest (i + 1) depth

/-- `block_end` as computed by the source: the end of the depth-0 walk, or
`block_start` itself when the walk never returns to depth 0. -/
def findBlockEnd (content : List Char) (blockStart : Nat) : Nat :=
  (scanFrom (content.drop blockStart) blockStart 0).getD blockStart

/-- The block text `content[block_start:block_end]`. -/
def blockAt (content : List Char) (blockStart : Nat) : List Char :=
  slice blockStart (findBlockEnd content blockStart) content

/-- Modelled from the spec (§4.1): a quote-aware depth scan, in which a
parenthesis between double quotes is depth-neutral.  This definition follows
the spec's words ("the implementation must track \x22inside quotes\x22 state and
ignore parens there") and exists only to be compared with `scanFrom`, the scan
the source actually performs. -/
def scanFromQuoteAware : List Char → Nat → Int → Bool → Option Nat
  | [], _, _, _ => none
  | c :: rest, i, depth, inQ =>
    if c = '"' then scanFromQuoteAware rest (i + 1) depth (!inQ)
    else if inQ then scanFromQuoteAware rest (i + 1) depth inQ
    else if c = '(' then scanFromQuoteAware rest (i + 1) (depth + 1) inQ
    else if c = ')' then
      if depth - 1 = 0 then some (i + 1) else scanFromQuoteAware rest (i + 1) (depth - 1) inQ
    else scanFromQuoteAware rest (i + 1) depth inQ

/-- Modelled from the spec: `block_end` under the quote-aware scan. -/
def findBlockEndQuoteAware (content : List Char) (blockStart : Nat) : Nat :=
  (scanFromQuoteAware (content.drop blockStart) blockStart 0 false).getD blockStart

/-! ## Python `float()` on strings drawn from the class `[0-9.-]`

`apply_mapping.py` line 74 runs `float(match.group(5))` on a string of
characters from `[0-9.-]`.  Valid inputs have an optional leading `-` and one
run of digits with at most one decimal point (`"1"`, `"1."`, `".5"`, `"-0.25"`);
anything else (`"1.2.3"`, `"--1"`, `"-"`, `"1-2"`) raises `ValueError`, killing
the script.  The valid values are represented exactly in `ℚ`. -/

/-- Value of a digit run as a natural number. -/
def digitsVal (ds : List Char) : Nat :=
  ds.foldl (fun n c => n * 10 + (c.toNat - 48)) 0

def parseUnsigned : List Char → Option ℚ
  | cs =>
    let ip := cs.takeWhile Char.isDigit
    match cs.drop ip.length with
    | [] => if ip = [] then none else some (digitsVal ip : ℚ)
    | '.' :: fr =>
      let fp := fr.takeWhile Char.isDigit
      if fr.drop fp.length ≠ [] then none
      else if ip = [] ∧ fp = [] then none
      else some ((digitsVal ip : ℚ) + (digitsVal fp : ℚ) / ((10 : ℚ) ^ fp.length))
    | _ => none

/-- Python `float(s)` for `s` drawn from `[0-9.-]+`; `none` models the
uncaught `ValueError`. -/
def parseFloat? : List Char → Option ℚ
  | '-' :: rest => (parseUnsigned rest).map (fun q => -q)
  | cs => parseUnsigned cs

/-! ## The footprint-header regex of `apply_mapping.py` (line 71)

    \t\(footprint "([^"]+)"\s*\n\t\t\(layer "[^"]+"\)\s*\n\t\t
    \(uuid "([a-f0-9-]+)"\)\s*\n\t\t\(at ([0-9.-]+) ([0-9.-]+)

Each `X+` class here is followed by a literal character not in the class, so
the greedy run is exact.  The `\s*\n\t\t\(` joints deserve care: `\s*` is
greedy and `\n`, `\t` are themselves in `\s`, so the joint matches exactly
when the maximal whitespace run ends with the three characters `\n\t\t` and
is followed by `(`; Python's backtracking admits no other split.  (`\s` is
modelled by the ASCII whitespace characters; the documents in this repository
are ASCII.) -/

def isWsC (c : Char) : Bool :=
  c = ' ' || c = '\t' || c = '\n' || c = '\x0d' || c = '\x0b' || c = '\x0c'

def isHexDashC (c : Char) : Bool :=
  c.isDigit || ('a' ≤ c && c ≤ 'f') || c = '-'

def isNumC (c : Char) : Bool :=
  c.isDigit || c = '.' || c = '-'

/-- Consume a literal. -/
def dropLit (pat s : List Char) : Option (List Char) :=
  if pat.isPrefixOf s then some (s.drop pat.length) else none

/-- Consume `\s*\n\t\t` followed (in the caller) by a `(`: the maximal
whitespace run must end in `\n\t\t`. -/
def wsNlTabTab (s : List Char) : Option (List Char) :=
  let w := s.takeWhile isWsC
  if 3 ≤ w.length ∧ w.drop (w.length - 3) = ['\n', '\t', '\t'] then some (s.drop w.length)
  else none

/-- Consume a nonempty greedy run of a class followed by a literal delimiter
not in the class. -/
def classRunThen (cls : Char → Bool) (delim s : List Char) : Option (List Char × List Char) :=
  let run := s.takeWhile cls
  if run = [] then none
  else (dropLit delim (s.drop run.length)).map (fun r => (run, r))

/-- A match of the footprint-header pattern: the length of the matched text
and the text of capture group 5 (the Y coordinate). -/
structure MatchH where
  len : Nat
  ystr : List Char
deriving DecidableEq, Repr

/-- Try the footprint-header pattern at the start of `s`. -/
def matchHeaderAt (s : List Char) : Option MatchH :=
  (dropLit ("\t(footprint \"").data s).bind fun s1 =>
  (classRunThen (fun c => c ≠ '"') ("\"").data s1).bind fun p1 =>
  (wsNlTabTab p1.2).bind fun s2 =>
  (dropLit ("(layer \"").data s2).bind fun s3 =>
  (classRunThen (fun c => c ≠ '"') ("\")").data s3).bind fun p2 =>
  (wsNlTabTab p2.2).bind fun s4 =>
  (dropLit ("(uuid \"").data s4).bind fun s5 =>
  (classRunThen isHexDashC ("\")").data s5).bind fun p3 =>
  (wsNlTabTab p3.2).bind fun s6 =>
  (dropLit ("(at ").data s6).bind fun s7 =>
  (classRunThen isNumC (" ").data s7).bind fun p4 =>
  let ys := p4.2.takeWhile isNumC
  if ys = [] then none
  else some ⟨s.length - (p4.2.length - ys.length), ys⟩

/-- `re.finditer` of the header pattern: leftmost matches, resuming after the
end of each match.  The fuel (initially `length + 1`) only bounds the number
of steps; every step consumes at least one character. -/
def findIterAux : Nat → List Char → Nat → List (Nat × MatchH)
  | 0, _, _ => []
  | _, [], _ => []
  | fuel + 1, s@(_ :: rest), pos =>
    match matchHeaderAt s with
    | some m => (pos, m) :: findIterAux fuel (s.drop m.len) (pos + m.len)
    | none => findIterAux fuel rest (pos + 1)

def findIter (content : List Char) : List (Nat × MatchH) :=
  findIterAux (content.length + 1) content 0

/-! ## Document patcher of `apply_mapping.py` (lines 61–147)

One mapping entry `old_ref -> (new_ref, sch_uuid)`.  For each entry the source
iterates over the header matches of the current document; for each match it
checks the region filter (`y < 180`), extracts the block by depth scan, checks
that the block carries `(property "Reference" "<old_ref>"`, skips (printing
"Skipping … - already linked") when the block has a `(path "/…")` field,
otherwise renames the reference, inserts the path/sheetname/sheetfile
fragment, splices the block back, counts the change and breaks. -/

structure Entry where
  old_ref : List Char
  new_ref : List Char
  sch_uuid : List Char
deriving DecidableEq, Repr

/-- The literal text matched by the pattern
`\(property "Reference" "<ref>"` (the trailing quote included). -/
def refLit (r : List Char) : List Char :=
  ("(property \"Reference\" \"").data ++ r ++ ("\"").data

/-- Step 1 of the edit (line 110): `re.sub` of the exact quoted old value. -/
def renameRef (old new block : List Char) : List Char :=
  replaceAll (refLit old) (refLit new) block

/-- The regex `\(path "/[a-f0-9-]+"\)` tried at one position. -/
def matchPathAt (s : List Char) : Bool :=
  ("(path \"/").data.isPrefixOf s &&
    (let r := s.drop 8
     let run := r.takeWhile isHexDashC
     decide (run ≠ []) && ("\")").data.isPrefixOf (r.drop run.length))

/-- `re.search(r'\(path "/[a-f0-9-]+"\)', block)` as a Boolean. -/
def containsPathFrom : List Char → Bool
  | [] => false
  | s@(_ :: rest) => matchPathAt s || containsPathFrom rest

/-- The regex `\(attr [^\)]+\)` tried at one position; returns the match
length.  The class run is greedy and `)` is not in the class, so the greedy
run is exact. -/
def matchAttrAt (s : List Char) : Option Nat :=
  (dropLit ("(attr ").data s).bind fun s1 =>
    let run := s1.takeWhile (fun c => c ≠ ')')
    if run = [] then none
    else if (")").data.isPrefixOf (s1.drop run.length) then some (6 + run.length + 1)
    else none

/-- The inserted cross-reference fragment (line 117). -/
def insertText (uuid : List Char) : List Char :=
  ("\n\t\t(path \"/").data ++ uuid ++
    ("\")\n\t\t(sheetname \"/\")\n\t\t(sheetfile \"isoSPI-M3Y-BMS-PCB.kicad_sch\")").data

/-- Step 2 of the edit (lines 117–135): insert after the first `(attr …)`,
else before the first `\n\t\t(fp_`, else before the first `\n\t\t(pad `;
when none of the three anchors exists the block is returned unchanged. -/
def insertCrossRef (uuid block : List Char) : List Char :=
  match firstPosWhere matchAttrAt block 0 with
  | some pr => block.take (pr.1 + pr.2) ++ insertText uuid ++ block.drop (pr.1 + pr.2)
  | none =>
    match firstIndexOf ("\n\t\t(fp_").data block with
    | some p => block.take p ++ insertText uuid ++ block.drop p
    | none =>
      match firstIndexOf ("\n\t\t(pad ").data block with
      | some p => block.take p ++ insertText uuid ++ block.drop p
      | none => block

/-- The full mutation of one matched block: rename, then insert. -/
def patchedBlock (e : Entry) (block : List Char) : List Char :=
  insertCrossRef e.sch_uuid (renameRef e.old_ref e.new_ref block)

/-- The per-record messages the script prints while patching. -/
inductive Ev where
  | skipping (old : List Char)
  | processing (old new : List Char)
deriving DecidableEq, Repr

/-- The `for match in re.finditer(...)` loop body for one mapping entry
(lines 73–140).  The matches were computed on the entry's starting document;
the loop breaks at the first block that passes every check.  `none` models
the uncaught `ValueError` of `float()`. -/
def loopMatches (content : List Char) (e : Entry) :
    List (Nat × MatchH) → Option (List Char × Bool × List Ev)
  | [] => some (content, false, [])
  | m :: rest =>
    match parseFloat? m.2.ystr with
    | none => none
    | some y =>
      if 180 ≤ y then loopMatches content e rest
      else if containsLit (refLit e.old_ref) (blockAt content m.1) then
        if containsPathFrom (blockAt content m.1) then
          (loopMatches content e rest).map
            (fun r => (r.1, r.2.1, Ev.skipping e.old_ref :: r.2.2))
        else
          some (content.take m.1 ++ patchedBlock e (blockAt content m.1) ++
                  content.drop (findBlockEnd content m.1),
                true, [Ev.processing e.old_ref e.new_ref])
      else loopMatches content e rest

/-- Processing of one mapping entry against the current document. -/
def processEntry (content : List Char) (e : Entry) :
    Option (List Char × Bool × List Ev) :=
  loopMatches content e (findIter content)

/-- The outer `for old_ref, (new_ref, sch_uuid) in MAPPING.items()` loop
(line 68): the document is threaded through, changes are counted, and the
file is then written unconditionally (lines 142–143).  The returned document
is the content of that write. -/
def applyMappingCore : List Entry → List Char → Option (List Char × Nat × List Ev)
  | [], content => some (content, 0, [])
  | e :: es, content =>
    match processEntry content e with
    | none => none
    | some r =>
      (applyMappingCore es r.1).map
        (fun t => (t.1, (if r.2.1 then 1 else 0) + t.2.1, r.2.2 ++ t.2.2))

/-- Whether a match of the loop passes every check of the loop body: region
filter `y < 180`, reference match, and not already linked.  The loop breaks
at the first such match. -/
def eligB (content : List Char) (e : Entry) (m : Nat × MatchH) : Bool :=
  match parseFloat? m.2.ystr with
  | none => false
  | some y =>
    decide (y < 180) && containsLit (refLit e.old_ref) (blockAt content m.1) &&
      !containsPathFrom (blockAt content m.1)

/-- The splice the loop performs at a match. -/
def spliceAt (content : List Char) (e : Entry) (s : Nat) : List Char :=
  content.take s ++ patchedBlock e (blockAt content s) ++
    content.drop (findBlockEnd content s)

/-- The document produced by the loop, as a function of its first eligible
match. -/
def spliceOpt (content : List Char) (e : Entry) : Option (Nat × MatchH) → List Char
  | none => content
  | some m => spliceAt content e m.1

/-- The event list produced by the loop: one skip message per already-linked
reference match seen before the break, then the processing message if a block
was patched. -/
def evShape (e : Entry) (k : Nat) (success : Bool) : List Ev :=
  if success then
    List.replicate k (Ev.skipping e.old_ref) ++ [Ev.processing e.old_ref e.new_ref]
  else List.replicate k (Ev.skipping e.old_ref)

/-- Builds an entry from literals, in the shape of the `MAPPING` dict. -/
def mk3 (a b c : String) : Entry := ⟨a.data, b.data, c.data⟩

/-- The hardcoded `MAPPING` table of `apply_mapping.py` (lines 9–58), in the
source's insertion order (Python dicts iterate in insertion order). -/
def MAPPING : List Entry := [
  mk3 "U11" "U27" "e9131814-0fd0-4849-9e00-37477ad2ee85",
  mk3 "Y1" "Y2" "114ce896-9d2e-4f4a-99c7-1d06169e7762",
  mk3 "L6" "L7" "81ea4cab-2d71-4b8a-8c70-67ca8e9489c5",
  mk3 "D34" "D33" "827f3c6a-8683-48e2-8797-78f8f7ccbf8c",
  mk3 "SW1" "SW3" "c462dde2-8d33-4944-9461-42ab8017ec14",
  mk3 "SW2" "SW4" "8714c774-6e97-4614-ae33-6a064005529f",
  mk3 "J9" "J16" "3655f5dc-78f0-4980-abba-cb1727603416",
  mk3 "C27" "C37" "6c7f03a8-70dd-4ebe-bb07-236673108691",
  mk3 "C32" "C48" "ffd91b9f-ec3c-4091-b6d6-27f751d5a551",
  mk3 "C35" "C61" "bc989d8d-9f40-41eb-b7ab-96d69ed0b185",
  mk3 "C36" "C69" "ee311b15-2016-4c7e-83a2-5b1bee8661a5",
  mk3 "C46" "C71" "3f29c3b7-eebf-4047-9201-fee02c8c5fdf",
  mk3 "C47" "C72" "18988aca-3352-4f03-bec6-161e8a071ef0",
  mk3 "C58" "C117" "1a5988b0-b975-4058-bfd5-9895e9de44cc",
  mk3 "C59" "C118" "08a9067d-188d-4e72-8b0f-cc126224f7f5",
  mk3 "C60" "C120" "4e3eaf2c-55b8-4d46-b03b-d843768c9e56",
  mk3 "C63" "C123" "7aea52b4-3055-4f2a-aef2-798bda605aef",
  mk3 "C64" "C124" "0dcab54f-d5d7-4a99-babe-8c651bbd87b3",
  mk3 "C65" "C126" "8a796792-e1c8-45ae-a05f-2625b15906fd",
  mk3 "C66" "C127" "4d7b5974-73c5-4078-aa05-856c81275efe",
  mk3 "C67" "C128" "44b4b8ea-c748-4761-b496-627b1ace9521",
  mk3 "C70" "C129" "0f949479-a7e9-4af1-9b22-d27ba227d642",
  mk3 "C74" "C130" "daf50076-ab18-45b1-baaa-0c4227b2f622",
  mk3 "C78" "C131" "e41a5372-d764-49df-8ffa-b16dc5d8e01d",
  mk3 "R33" "R19" "d0bb546d-01b1-47de-8ba8-9a857a26e9cb",
  mk3 "R43" "R21" "f3d7b815-cebc-4b68-9446-81b032afa6de",
  mk3 "R46" "R24" "e16f74c3-1aea-40eb-8095-078a827e1055",
  mk3 "R49" "R48" "6e4cf0f6-c652-479c-98b9-e9cf6e9c484d",
  mk3 "R50" "R58" "5f058f98-653f-4803-af1d-30e4b7222025",
  mk3 "R51" "R167" "b0a946fc-02f0-414f-b178-91b6b13bd5a6",
  mk3 "R52" "R168" "773a0e0e-14d2-41d6-bb67-56306bf94f83",
  mk3 "R56" "R170" "b98c1234-edff-4803-a0be-8a8d2638c8fb",
  mk3 "R80" "R171" "110cc942-f5d0-4c75-a2bb-e1d38da8302d"]

/-- `apply_mapping` on the document text, with the source's hardcoded table. -/
def applyMapping (content : List Char) : Option (List Char × Nat × List Ev) :=
  applyMappingCore MAPPING content

/-! ## Document patcher of `reassociate_components.py`:
`apply_mapping_to_pcb` (lines 205–279)

One mapping row carries `pcb_uuid`, `sch_uuid`, `pcb_ref` (old), `sch_ref`
(new).  The block is located by `content.find('(uuid "<pcb_uuid>")')` and
`content.rfind('\t(footprint "', 0, uuid_pos)`, extracted with the same depth
scan, its reference is renamed UNCONDITIONALLY (lines 250–254), and the
cross-reference fragment is inserted only when `'(path "/' not in new_block`
(line 257), trying `(attr …)` then `\n\t\t(fp_line` (no pad fallback). -/

structure EntryPcb where
  pcb_uuid : List Char
  sch_uuid : List Char
  old_ref : List Char
  new_ref : List Char
deriving DecidableEq, Repr

/-- Insertion step of `apply_mapping_to_pcb` (lines 260–272). -/
def insertPcb (uuid block : List Char) : List Char :=
  match firstPosWhere matchAttrAt block 0 with
  | some pr => block.take (pr.1 + pr.2) ++ insertText uuid ++ block.drop (pr.1 + pr.2)
  | none =>
    match firstIndexOf ("\n\t\t(fp_line").data block with
    | some p => block.take p ++ insertText uuid ++ block.drop p
    | none => block

/-- One iteration of the `for m in mapping` loop of `apply_mapping_to_pcb`
(lines 210–274).  The WARNING branches leave the document unchanged. -/
def processEntryPcb (content : List Char) (m : EntryPcb) : List Char :=
  let uuidPat := ("(uuid \"").data ++ m.pcb_uuid ++ ("\")").data
  match firstIndexOf uuidPat content with
  | none => content
  | some upos =>
    match lastIndexOf ("\t(footprint \"").data (content.take upos) with
    | none => content
    | some bs =>
      let be := findBlockEnd content bs
      let nb1 := renameRef m.old_ref m.new_ref (slice bs be content)
      let nb2 := if containsLit ("(path \"/").data nb1 then nb1 else insertPcb m.sch_uuid nb1
      content.take bs ++ nb2 ++ content.drop be

/-- The whole mapping loop of `apply_mapping_to_pcb`; the resulting document
is then written unconditionally (lines 276–277). -/
def applyMappingToPcb (mapping : List EntryPcb) (content : List Char) : List Char :=
  mapping.foldl processEntryPcb content

/-! ## Classifier and correspondence builder of `reassociate_components.py`
(`get_footprint_type` lines 135–154, `create_mapping` lines 157–202) -/

/-- A parsed component record; only the fields `create_mapping` reads. -/
structure Comp where
  reference : List Char
  footprint : List Char
  uuid : List Char
deriving DecidableEq, Repr

inductive FpType where
  | MCU | CAP | RES | LED | CRYSTAL | INDUCTOR | SWITCH | CONNECTOR | OTHER
deriving DecidableEq, Repr

/-- `get_footprint_type`: first matching substring rule wins. -/
def getFootprintType (fp : List Char) : FpType :=
  let l := fp.map Char.toLower
  if containsLit ("rp2350").data l &&
      (containsLit ("qfn").data l || containsLit ("ep").data l) then .MCU
  else if containsLit ("capacitor").data l || containsLit ("c_0").data l then .CAP
  else if containsLit ("resistor").data l || containsLit ("r_0").data l then .RES
  else if containsLit ("led").data l then .LED
  else if containsLit ("crystal").data l then .CRYSTAL
  else if containsLit ("l_pol").data l || containsLit ("inductor").data l then .INDUCTOR
  else if containsLit ("sw_push").data l || containsLit ("switch").data l then .SWITCH
  else if containsLit ("pinheader").data l || containsLit ("connector").data l ||
      containsLit ("conn").data l then .CONNECTOR
  else .OTHER

/-- `int(re.search(r'\d+', ref).group())` with fallback 0: the value of the
FIRST maximal digit run in the identifier, 0 when there are no digits. -/
def firstNum (ref : List Char) : Nat :=
  digitsVal ((ref.dropWhile (fun c => !c.isDigit)).takeWhile Char.isDigit)

/-- The sort key of lines 174/177: `(x['reference'][0], first digit run)`.
The first element is the ONE-character string `reference[0]` (an exception on
an empty identifier; the parsers only produce nonempty ones, modelled by a
space default). -/
def codeKey (c : Comp) : Char × Nat :=
  (c.reference.headD ' ', firstNum c.reference)

/-- Python tuple comparison on the key. -/
def keyLtB (a b : Char × Nat) : Bool :=
  a.1 < b.1 || (a.1 = b.1 && a.2 < b.2)

/-- Stable insertion: the new element goes before the first strictly greater
one, hence after all earlier elements with an equal key, as Python's stable
`list.sort` does. -/
def insertByKey (x : Comp) : List Comp → List Comp
  | [] => [x]
  | y :: ys => if keyLtB (codeKey x) (codeKey y) then x :: y :: ys else y :: insertByKey x ys

/-- The per-category sort of lines 172–177. -/
def sortComps (l : List Comp) : List Comp :=
  l.foldl (fun acc x => insertByKey x acc) []

/-- Modelled from the spec (§4.4 step 2): the full leading alphabetic prefix
of the identifier.  This definition follows the spec's words and exists only
to be compared with `codeKey`, the key the source actually uses. -/
def leadingAlpha (ref : List Char) : List Char :=
  ref.takeWhile Char.isAlpha

/-- Modelled from the spec: the numeric suffix of the identifier, 0 if
absent. -/
def suffixNum (ref : List Char) : Nat :=
  digitsVal ((ref.reverse.takeWhile Char.isDigit).reverse)

/-- Lexicographic order on strings (Python `str < str`). -/
def strLtB : List Char → List Char → Bool
  | [], [] => false
  | [], _ :: _ => true
  | _ :: _, [] => false
  | a :: as', b :: bs' => a < b || (a = b && strLtB as' bs')

/-- Modelled from the spec: the composite key
(full leading alphabetic run, numeric suffix), compared lexicographically. -/
def specKeyLt (x y : Comp) : Bool :=
  strLtB (leadingAlpha x.reference) (leadingAlpha y.reference) ||
    (leadingAlpha x.reference = leadingAlpha y.reference &&
      suffixNum x.reference < suffixNum y.reference)

def specInsert (x : Comp) : List Comp → List Comp
  | [] => [x]
  | y :: ys => if specKeyLt x y then x :: y :: ys else y :: specInsert x ys

/-- Modelled from the spec: the per-category sort under the spec's key. -/
def specSortComps (l : List Comp) : List Comp :=
  l.foldl (fun acc x => specInsert x acc) []

/-- One row appended to `mapping` (lines 191–197). -/
structure MapEntry where
  pcb_ref : List Char
  pcb_uuid : List Char
  sch_ref : List Char
  sch_uuid : List Char
  fp_type : FpType
deriving DecidableEq, Repr

/-- The lines `create_mapping` prints: the per-category count line (185), the
pair line (198) and the no-match line for a surplus PCB component (200).
There is no constructor for a surplus schematic component because the source
prints nothing for one. -/
inductive MapEv where
  | countLine (t : FpType) (nSch nPcb : Nat)
  | pairLine (pcbRef schRef : List Char)
  | noMatchLine (pcbRef : List Char)
deriving DecidableEq, Repr

/-- Whether a report line names the given identifier. -/
def evMentions (r : List Char) : MapEv → Bool
  | .countLine _ _ _ => false
  | .pairLine a b => a = r || b = r
  | .noMatchLine a => a = r

def mkMapEntry (t : FpType) (p s : Comp) : MapEntry :=
  ⟨p.reference, p.uuid, s.reference, s.uuid, t⟩

/-- The `for i, pcb_comp in enumerate(pcb_list)` loop of lines 188–200:
the i-th PCB component is paired with the i-th schematic component while
schematic components remain; the surplus PCB components each get a NO MATCH
line; surplus schematic components are not visited at all. -/
def pairLists (t : FpType) : List Comp → List Comp → List MapEntry × List MapEv
  | [], _ => ([], [])
  | p :: ps, [] =>
    ([], MapEv.noMatchLine p.reference :: (pairLists t ps []).2)
  | p :: ps, s :: ss =>
    ((mkMapEntry t p s) :: (pairLists t ps ss).1,
      MapEv.pairLine p.reference s.reference :: (pairLists t ps ss).2)

/-- One category of the `for fp_type in set(...)` loop (lines 181–200). -/
def catStep (sch pcb : List Comp) (t : FpType) : List MapEntry × List MapEv :=
  let schT := sortComps (sch.filter (fun c => getFootprintType c.footprint = t))
  let pcbT := sortComps (pcb.filter (fun c => getFootprintType c.footprint = t))
  let pr := pairLists t pcbT schT
  (pr.1, MapEv.countLine t schT.length pcbT.length :: pr.2)

def allFpTypes : List FpType :=
  [.MCU, .CAP, .RES, .LED, .CRYSTAL, .INDUCTOR, .SWITCH, .CONNECTOR, .OTHER]

/-- The categories present in either record set.  Python iterates
`set(list(sch_by_type.keys()) + list(pcb_by_type.keys()))`, whose order is
unspecified; a fixed canonical order is chosen here (the claims under proof
are per-category and do not depend on it). -/
def usedTypes (sch pcb : List Comp) : List FpType :=
  allFpTypes.filter (fun t =>
    sch.any (fun c => getFootprintType c.footprint = t) ||
      pcb.any (fun c => getFootprintType c.footprint = t))

/-- `create_mapping`: the returned mapping list together with the printed
report. -/
def createMapping (sch pcb : List Comp) : List MapEntry × List MapEv :=
  (usedTypes sch pcb).foldl
    (fun acc t => (acc.1 ++ (catStep sch pcb t).1, acc.2 ++ (catStep sch pcb t).2))
    ([], [])

/-! ## Concrete documents and records used by the witnesses and
counterexamples -/

/-- A well-formed one-footprint document: header shape of the finditer
pattern, `y = 6 < 180`, reference `C1`, an `(attr …)` anchor, not yet
linked. -/
def exDoc : List Char :=
  ("HDR\n\t(footprint \"C_0402\"\n\t\t(layer \"F.Cu\")\n\t\t(uuid \"ab-1\")\n\t\t(at 5 6)\n\t\t(property \"Reference\" \"C1\" (at 0 0))\n\t\t(attr smd)\n\t)\n").data

/-- The mapping entry `C1 -> (C2, e9-13)` used with `exDoc`. -/
def eC1 : Entry := mk3 "C1" "C2" "e9-13"

/-- An entry whose old reference occurs nowhere in `exDoc`. -/
def eMiss : Entry := mk3 "R9" "R10" "aa-0"

/-- `exDoc` after one run of the patcher on `eC1` (reference renamed,
fragment inserted after `(attr smd)`). -/
def exDoc1 : List Char :=
  ("HDR\n\t(footprint \"C_0402\"\n\t\t(layer \"F.Cu\")\n\t\t(uuid \"ab-1\")\n\t\t(at 5 6)\n\t\t(property \"Reference\" \"C2\" (at 0 0))\n\t\t(attr smd)\n\t\t(path \"/e9-13\")\n\t\t(sheetname \"/\")\n\t\t(sheetfile \"isoSPI-M3Y-BMS-PCB.kicad_sch\")\n\t)\n").data

/-- Two eligible footprint blocks, both carrying reference `C1`. -/
def exDoc10 : List Char :=
  ("\t(footprint \"C_0402\"\n\t\t(layer \"F.Cu\")\n\t\t(uuid \"ab-1\")\n\t\t(at 5 6)\n\t\t(property \"Reference\" \"C1\" (at 0 0))\n\t\t(attr smd)\n\t)\n\t(footprint \"C_0402\"\n\t\t(layer \"F.Cu\")\n\t\t(uuid \"ab-2\")\n\t\t(at 7 8)\n\t\t(property \"Reference\" \"C1\" (at 0 0))\n\t\t(attr smd)\n\t)\n").data

/-- A footprint block that already carries a `(path "/…")` field. -/
def exC3 : List Char :=
  ("\t(footprint \"C_0402\"\n\t\t(layer \"F.Cu\")\n\t\t(uuid \"ab-1\")\n\t\t(at 5 6)\n\t\t(property \"Reference\" \"C1\" (at 0 0))\n\t\t(path \"/aa-2\")\n\t\t(attr smd)\n\t)\n").data

/-- The `apply_mapping_to_pcb` row targeting `exC3` by its uuid. -/
def mC3 : EntryPcb := ⟨("ab-1").data, ("e9-13").data, ("C1").data, ("C2").data⟩

/-- A footprint block with none of the three insertion anchors: no
`(attr …)`, no `\n\t\t(fp_`, no `\n\t\t(pad `. -/
def exC4 : List Char :=
  ("\t(footprint \"C_0402\"\n\t\t(layer \"F.Cu\")\n\t\t(uuid \"ab-1\")\n\t\t(at 5 6)\n\t\t(property \"Reference\" \"C1\" (at 0 0))\n\t)\n").data

/-- A document whose single footprint block is unterminated: the text ends
inside the block, so the depth never returns to 0. -/
def exC9 : List Char :=
  ("\t(footprint \"C\"\n\t\t(layer \"F\")\n\t\t(uuid \"aa\")\n\t\t(at 1 2").data

/-- A block whose quoted property value contains a `)` immediately before
the true terminating `)`s. -/
def exC1doc : List Char :=
  ("(footprint \"f\" (property \"V\" \"x)\"))").data

/-- A minimal record whose quoted string contains `)` right before the true
terminator. -/
def exC1doc2 : List Char :=
  ("(a \"x)\")").data

def mkComp (r fp u : String) : Comp := ⟨r.data, fp.data, u.data⟩

def schC1 : Comp := mkComp "C1" "Capacitor_SMD:C_0402" "s1"
def schC2 : Comp := mkComp "C2" "Capacitor_SMD:C_0402" "s2"
def schC3 : Comp := mkComp "C3" "Capacitor_SMD:C_0402" "s3"
def pcbC10 : Comp := mkComp "C10" "Capacitor_SMD:C_0402" "p10"
def pcbC11 : Comp := mkComp "C11" "Capacitor_SMD:C_0402" "p11"

/-- Components whose identifiers distinguish the code's sort key (first
character only) from the spec's (full alphabetic run): `S5` vs `SW1`. -/
def compS5 : Comp := mkComp "S5" "SW_Push" "u5"
def compSW1 : Comp := mkComp "SW1" "SW_Push" "u1"
def compC : Comp := mkComp "C" "Capacitor_SMD:C_0402" "uC"
def compC7 : Comp := mkComp "C7" "Capacitor_SMD:C_0402" "u7"

/-- `exC3` after `apply_mapping_to_pcb` processes `mC3`: the reference was
renamed even though the block was already linked. -/
def exC3renamed : List Char :=
  ("\t(footprint \"C_0402\"\n\t\t(layer \"F.Cu\")\n\t\t(uuid \"ab-1\")\n\t\t(at 5 6)\n\t\t(property \"Reference\" \"C2\" (at 0 0))\n\t\t(path \"/aa-2\")\n\t\t(attr smd)\n\t)\n").data

/-- `exC4` after `apply_mapping` processes `eC1`: the reference was renamed,
no fragment was inserted, no error was raised. -/
def exC4out : List Char :=
  ("\t(footprint \"C_0402\"\n\t\t(layer \"F.Cu\")\n\t\t(uuid \"ab-1\")\n\t\t(at 5 6)\n\t\t(property \"Reference\" \"C2\" (at 0 0))\n\t)\n").data

/-! ## Helper lemmas -/

theorem evShape_succ (e : Entry) (k : Nat) (b : Bool) :
    Ev.skipping e.old_ref :: evShape e k b = evShape e (k + 1) b := by
  cases b <;> simp [evShape, List.replicate_succ]

/-- The master characterization of the per-entry loop: it returns the splice
at the first match passing every check (or the unchanged document), the
changed flag records whether such a match exists, and the printed events are
the skip messages seen before the break followed by the processing message
on success. -/
theorem loop_spec (content : List Char) (e : Entry) :
    ∀ ms : List (Nat × MatchH), (∀ m ∈ ms, (parseFloat? m.2.ystr).isSome = true) →
    ∃ k, loopMatches content e ms =
      some (spliceOpt content e (ms.find? (eligB content e)),
            (ms.find? (eligB content e)).isSome,
            evShape e k (ms.find? (eligB content e)).isSome) := by
  intro ms
  induction ms with
  | nil => intro _; exact ⟨0, rfl⟩
  | cons m rest ih =>
    intro hp
    have hm : (parseFloat? m.2.ystr).isSome = true := hp m (List.mem_cons_self m rest)
    have hrest : ∀ m' ∈ rest, (parseFloat? m'.2.ystr).isSome = true :=
      fun m' hm' => hp m' (List.mem_cons_of_mem m hm')
    obtain ⟨y, hy⟩ := Option.isSome_iff_exists.mp hm
    by_cases h180 : (180 : ℚ) ≤ y
    · have helig : eligB content e m = false := by
        simp [eligB, hy, not_lt.mpr h180]
      obtain ⟨k, hk⟩ := ih hrest
      refine ⟨k, ?_⟩
      rw [List.find?_cons_of_neg _ (by simp [helig])]
      simpa [loopMatches, hy, h180] using hk
    · by_cases href : containsLit (refLit e.old_ref) (blockAt content m.1) = true
      · by_cases hpath : containsPathFrom (blockAt content m.1) = true
        · have helig : eligB content e m = false := by
            simp [eligB, hy, hpath]
          obtain ⟨k, hk⟩ := ih hrest
          refine ⟨k + 1, ?_⟩
          rw [List.find?_cons_of_neg _ (by simp [helig])]
          have hstep : loopMatches content e (m :: rest) =
              Option.map (fun r => (r.1, r.2.1, Ev.skipping e.old_ref :: r.2.2))
                (loopMatches content e rest) := by
            simp [loopMatches, hy, h180, href, hpath]
          rw [hstep, hk]
          simp [evShape_succ]
        · have helig : eligB content e m = true := by
            simp [eligB, hy, href, hpath, lt_of_not_le h180]
          refine ⟨0, ?_⟩
          rw [List.find?_cons_of_pos _ helig]
          simp [loopMatches, hy, h180, href, hpath, spliceOpt, spliceAt, evShape]
      · have helig : eligB content e m = false := by
          simp [eligB, hy, href]
        obtain ⟨k, hk⟩ := ih hrest
        refine ⟨k, ?_⟩
        rw [List.find?_cons_of_neg _ (by simp [helig])]
        simpa [loopMatches, hy, h180, href] using hk

/-- A loop that never set the changed flag left the document unchanged. -/
theorem loop_unchanged (content : List Char) (e : Entry) :
    ∀ ms r, loopMatches content e ms = some r → r.2.1 = false → r.1 = content := by
  intro ms
  induction ms with
  | nil =>
    intro r h _
    simp only [loopMatches, Option.some_inj] at h
    rw [← h]
  | cons m rest ih =>
    intro r h hf
    cases hy : parseFloat? m.2.ystr with
    | none =>
      simp only [loopMatches, hy] at h
      exact Option.noConfusion h
    | some y =>
      simp only [loopMatches, hy] at h
      by_cases h180 : (180 : ℚ) ≤ y
      · rw [if_pos h180] at h; exact ih r h hf
      · rw [if_neg h180] at h
        by_cases href : containsLit (refLit e.old_ref) (blockAt content m.1) = true
        · rw [if_pos href] at h
          by_cases hpath : containsPathFrom (blockAt content m.1) = true
          · rw [if_pos hpath] at h
            obtain ⟨r0, hr0, hr⟩ := Option.map_eq_some'.mp h
            have : r0.2.1 = false := by rw [← hr] at hf; exact hf
            have h1 := ih r0 hr0 this
            rw [← hr]
            exact h1
          · rw [if_neg hpath] at h
            simp only [Option.some_inj] at h
            rw [← h] at hf
            exact absurd hf (by simp)
        · rw [if_neg href] at h; exact ih r h hf

theorem isPrefixOf_exists_append :
    ∀ (pat t : List Char), pat.isPrefixOf t = true → ∃ u, pat ++ u = t
  | [], t, _ => ⟨t, rfl⟩
  | _ :: _, [], h => by simp [List.isPrefixOf] at h
  | a :: pa, b :: tb, h => by
    simp only [List.isPrefixOf, Bool.and_eq_true, beq_iff_eq] at h
    obtain ⟨u, hu⟩ := isPrefixOf_exists_append pa tb h.2
    exact ⟨u, by rw [List.cons_append, hu, h.1]⟩

theorem isPrefixOf_self_append :
    ∀ (pat u : List Char), pat.isPrefixOf (pat ++ u) = true
  | [], u => by simp [List.isPrefixOf]
  | a :: pa, u => by simp [List.isPrefixOf, isPrefixOf_self_append pa u]

theorem firstPosWhere_some_drop (f : List Char → Option Nat) :
    ∀ (s : List Char) (pos p r : Nat), firstPosWhere f s pos = some (p, r) →
    ∃ n, f (s.drop n) = some r := by
  intro s
  induction s with
  | nil => intro pos p r h; simp [firstPosWhere] at h
  | cons c rest ih =>
    intro pos p r h
    simp only [firstPosWhere] at h
    cases hf : f (c :: rest) with
    | some v =>
      rw [hf] at h
      simp only [Option.some_inj, Prod.mk.injEq] at h
      exact ⟨0, by rw [List.drop_zero, hf, h.2]⟩
    | none =>
      rw [hf] at h
      obtain ⟨n, hn⟩ := ih _ _ _ h
      exact ⟨n + 1, by simpa using hn⟩

/-- A found literal is an infix of the text. -/
theorem isInfix_of_containsLit {pat s : List Char} (h : containsLit pat s = true) :
    List.IsInfix pat s := by
  unfold containsLit firstIndexOf at h
  obtain ⟨⟨p, r⟩, hp⟩ : ∃ pr, firstPosWhere (litAt pat) s 0 = some pr := by
    cases hfp : firstPosWhere (litAt pat) s 0 with
    | none => rw [hfp] at h; exact absurd h (by simp)
    | some v => exact ⟨v, rfl⟩
  obtain ⟨n, hn⟩ := firstPosWhere_some_drop _ s 0 p r hp
  unfold litAt at hn
  by_cases hpre : pat.isPrefixOf (s.drop n) = true
  · obtain ⟨u, hu⟩ := isPrefixOf_exists_append pat (s.drop n) hpre
    exact ⟨s.take n, u, by rw [List.append_assoc, hu, List.take_append_drop]⟩
  · rw [if_neg hpre] at hn; exact absurd hn (by simp)

/-- When the matcher fires on some suffix of the text, the scan finds a
position. -/
theorem firstPosWhere_isSome_of_drop (f : List Char → Option Nat) :
    ∀ (s : List Char) (pos n : Nat), s.drop n ≠ [] → (f (s.drop n)).isSome = true →
      (firstPosWhere f s pos).isSome = true := by
  intro s
  induction s with
  | nil => intro pos n hne _; simp at hne
  | cons c rest ih =>
    intro pos n hne hf
    cases n with
    | zero =>
      rw [List.drop_zero] at hf
      simp only [firstPosWhere]
      cases hfs : f (c :: rest) with
      | some v => simp
      | none => rw [hfs] at hf; exact absurd hf (by simp)
    | succ n' =>
      rw [List.drop_succ_cons] at hne hf
      simp only [firstPosWhere]
      cases hfs : f (c :: rest) with
      | some v => simp
      | none => exact ih (pos + 1) n' hne hf

/-- A literal that is an infix of the text is found. -/
theorem containsLit_of_isInfix {pat s : List Char} (hne : pat ≠ [])
    (h : List.IsInfix pat s) : containsLit pat s = true := by
  obtain ⟨a, b, hab⟩ := h
  unfold containsLit firstIndexOf
  have hdrop : s.drop a.length = pat ++ b := by
    rw [← hab, List.append_assoc, List.drop_left]
  have hne2 : s.drop a.length ≠ [] := by
    rw [hdrop]
    intro hc
    exact hne (List.append_eq_nil.mp hc).1
  have hfsome : (litAt pat (s.drop a.length)).isSome = true := by
    rw [hdrop]
    unfold litAt
    rw [if_pos (isPrefixOf_self_append pat b)]
    rfl
  have := firstPosWhere_isSome_of_drop (litAt pat) s 0 a.length hne2 hfsome
  cases hfp : firstPosWhere (litAt pat) s 0 with
  | none => rw [hfp] at this; exact absurd this (by simp)
  | some v => simp

/-- The extracted block is an infix of the document. -/
theorem blockAt_isInfix (content : List Char) (s : Nat) :
    List.IsInfix (blockAt content s) content := by
  refine ⟨content.take s,
    (content.drop s).drop (findBlockEnd content s - s), ?_⟩
  rw [blockAt, slice, List.append_assoc, List.take_append_drop, List.take_append_drop]

theorem refLit_ne_nil (r : List Char) : refLit r ≠ [] := by
  unfold refLit
  intro h
  rw [List.append_eq_nil, List.append_eq_nil] at h
  exact absurd h.1.1 (by decide)

/-- When a block at any position carries no occurrence of the reference
literal, the loop walks every match without changing anything or printing
anything. -/
theorem loop_no_refmatch (content : List Char) (e : Entry) :
    ∀ ms : List (Nat × MatchH),
      (∀ m ∈ ms, (parseFloat? m.2.ystr).isSome = true) →
      (∀ m ∈ ms, containsLit (refLit e.old_ref) (blockAt content m.1) = false) →
      loopMatches content e ms = some (content, false, []) := by
  intro ms
  induction ms with
  | nil => intro _ _; rfl
  | cons m rest ih =>
    intro hp hr
    have hm := hp m (List.mem_cons_self m rest)
    obtain ⟨y, hy⟩ := Option.isSome_iff_exists.mp hm
    have hrm := hr m (List.mem_cons_self m rest)
    have htail := ih (fun m' h' => hp m' (List.mem_cons_of_mem m h'))
      (fun m' h' => hr m' (List.mem_cons_of_mem m h'))
    simp only [loopMatches, hy]
    by_cases h180 : (180 : ℚ) ≤ y
    · rw [if_pos h180]; exact htail
    · rw [if_neg h180, if_neg (by simp [hrm])]
      exact htail

/-! ## Claims -/

/-- C1, counterexample.  The claim says parentheses inside quoted string
literals do not affect the depth counter and a block with a quoted `)` before
its true terminator is scanned to the true terminator.  On
`(footprint "f" (property "V" "x)"))` the source's scan (`findBlockEnd`)
stops at offset 34, inside the quoted value, while the quote-aware scan the
spec demands reaches the true terminator at offset 35: the scanner does
miscount quoted parentheses. -/
theorem c1_counterexample :
    findBlockEnd exC1doc 0 = 34 ∧ findBlockEndQuoteAware exC1doc 0 = 35 ∧
      findBlockEnd exC1doc 0 ≠ findBlockEndQuoteAware exC1doc 0 := by decide

/-- C1, amended.  Quoted strings are NOT depth-neutral in the source: every
`(` and `)` is counted, quoted or not, so a block whose quoted string holds a
`)` immediately before its true terminating `)` is ended early at the quoted
character.  On `(a "x)")` the scan ends at offset 6 (just after the quoted
`)`), not at the true terminator (offset 8), and the extracted block text is
cut inside the string literal. -/
theorem c1_amended :
    findBlockEnd exC1doc2 0 = 6 ∧ findBlockEndQuoteAware exC1doc2 0 = 8 ∧
      blockAt exC1doc2 0 = ("(a \"x)").data := by decide

/-- C9, counterexample.  The claim says that reaching end-of-document before
the depth returns to 0 fails with a `MalformedDocument` error.  The source
has no such error: on the unterminated document `exC9` the depth walk is
exhausted (`scanFrom … = none`), `block_end` keeps the value `block_start`,
the block is the empty string, and the patcher continues silently, reporting
nothing and changing nothing. -/
theorem c9_counterexample :
    scanFrom exC9 0 0 = none ∧ findBlockEnd exC9 0 = 0 ∧ blockAt exC9 0 = [] ∧
      processEntry exC9 (mk3 "C" "D" "ab") = some (exC9, false, []) := by decide

/-- C9, amended.  When end-of-document is reached before the depth counter of
a started block returns to 0, no error is raised: `block_end` keeps its
initial value `block_start`, every such block reads back as empty, its
reference check fails, and the entry's loop finishes silently with the
document unchanged and nothing reported. -/
theorem c9_amended (content : List Char) (e : Entry)
    (hp : ∀ m ∈ findIter content, (parseFloat? m.2.ystr).isSome = true)
    (hu : ∀ m ∈ findIter content, scanFrom (content.drop m.1) m.1 0 = none) :
    processEntry content e = some (content, false, []) := by
  unfold processEntry
  refine loop_no_refmatch content e (findIter content) hp ?_
  intro m hm
  have hend : findBlockEnd content m.1 = m.1 := by
    unfold findBlockEnd
    rw [hu m hm]
    rfl
  have hblock : blockAt content m.1 = [] := by
    unfold blockAt slice
    rw [hend]
    simp
  rw [hblock]
  rfl

/-- C9, witness for the amended theorem, at the unterminated document
`exC9`. -/
theorem c9_amended_witness :
    processEntry exC9 (mk3 "C" "D" "ab") = some (exC9, false, []) :=
  c9_amended exC9 (mk3 "C" "D" "ab") (by decide) (by decide)

/-- C2.  During one edit the patcher either leaves the document unchanged or
rewrites exactly the span of one matched block: the output is
`take start ++ patchedBlock ++ drop block_end`, so every byte before the
block start is preserved verbatim and every byte from the block end on is
preserved verbatim at its shifted offset; the rewriting itself
(`patchedBlock`) is applied to the block text alone, and its rename step
substitutes only the exact quoted old identifier literal. -/
theorem c2_frame (content : List Char) (e : Entry)
    (hp : ∀ m ∈ findIter content, (parseFloat? m.2.ystr).isSome = true) :
    ∃ r, processEntry content e = some r ∧
      (r.1 = content ∨
        ∃ m, m ∈ findIter content ∧
          r.1 = content.take m.1 ++ patchedBlock e (blockAt content m.1) ++
                  content.drop (findBlockEnd content m.1) ∧
          r.1.take ((content.take m.1).length) = content.take m.1 ∧
          r.1.drop ((content.take m.1 ++ patchedBlock e (blockAt content m.1)).length) =
            content.drop (findBlockEnd content m.1)) := by
  obtain ⟨k, hk⟩ := loop_spec content e (findIter content) hp
  refine ⟨_, hk, ?_⟩
  cases hf : (findIter content).find? (eligB content e) with
  | none => left; rfl
  | some m =>
    right
    refine ⟨m, List.mem_of_find?_eq_some hf, ?_, ?_, ?_⟩
    · rfl
    · show (spliceAt content e m.1).take _ = _
      unfold spliceAt
      rw [List.append_assoc, List.take_left]
    · show (spliceAt content e m.1).drop _ = _
      unfold spliceAt
      rw [List.drop_left]

/-- C2, witness: the frame property instantiated at the concrete document
`exDoc` and entry `eC1`. -/
theorem c2_frame_witness :
    ∃ r, processEntry exDoc eC1 = some r ∧
      (r.1 = exDoc ∨
        ∃ m, m ∈ findIter exDoc ∧
          r.1 = exDoc.take m.1 ++ patchedBlock eC1 (blockAt exDoc m.1) ++
                  exDoc.drop (findBlockEnd exDoc m.1) ∧
          r.1.take ((exDoc.take m.1).length) = exDoc.take m.1 ∧
          r.1.drop ((exDoc.take m.1 ++ patchedBlock eC1 (blockAt exDoc m.1)).length) =
            exDoc.drop (findBlockEnd exDoc m.1)) :=
  c2_frame exDoc eC1 (by decide)

/-- C10.  For one mapping entry the loop's result is fully determined by the
FIRST match that passes every check (`find?` over `eligB`): at most one
footprint block is spliced, even when several eligible blocks carry the same
old reference value, because the loop breaks right after the first splice. -/
theorem c10_first_match_only (content : List Char) (e : Entry)
    (hp : ∀ m ∈ findIter content, (parseFloat? m.2.ystr).isSome = true) :
    ∃ evs, processEntry content e =
      some (spliceOpt content e ((findIter content).find? (eligB content e)),
            ((findIter content).find? (eligB content e)).isSome, evs) := by
  obtain ⟨k, hk⟩ := loop_spec content e (findIter content) hp
  exact ⟨_, hk⟩

/-- C10, witness: on `exDoc10`, which holds TWO eligible blocks with
reference `C1`, the patcher's output is the splice at the first of them. -/
theorem c10_witness :
    ∃ evs, processEntry exDoc10 eC1 =
      some (spliceOpt exDoc10 eC1 ((findIter exDoc10).find? (eligB exDoc10 eC1)),
            ((findIter exDoc10).find? (eligB exDoc10 eC1)).isSome, evs) :=
  c10_first_match_only exDoc10 eC1 (by decide)

/-- C3, counterexample.  The claim says both patchers skip an already-linked
record entirely (no identifier rename, no insertion).  In
`apply_mapping_to_pcb` the rename is unconditional: on the already-linked
block `exC3` (it contains a `(path "/…")` field) the function still renames
the reference from `C1` to `C2`, so the document for that record changes. -/
theorem c3_counterexample :
    containsPathFrom exC3 = true ∧
      processEntryPcb exC3 mC3 = exC3renamed ∧ exC3renamed ≠ exC3 ∧
      containsLit (refLit (("C2").data)) (processEntryPcb exC3 mC3) = true := by decide

/-- C3, amended.  In `apply_mapping` an already-linked record is indeed
skipped entirely — the loop leaves the document unchanged, reports no change
and prints the skip message.  In `apply_mapping_to_pcb` only the fragment
insertion is skipped; the identifier rename is still applied (see the
counterexample). -/
theorem c3_amended (content : List Char) (e : Entry) (s : Nat) (h : MatchH) (y : ℚ)
    (hfind : findIter content = [(s, h)])
    (hy : parseFloat? h.ystr = some y) (h180 : y < 180)
    (href : containsLit (refLit e.old_ref) (blockAt content s) = true)
    (hpath : containsPathFrom (blockAt content s) = true) :
    processEntry content e = some (content, false, [Ev.skipping e.old_ref]) := by
  unfold processEntry
  rw [hfind]
  simp [loopMatches, hy, not_le.mpr h180, href, hpath]

/-- C3, witness for the amended theorem: `apply_mapping` on the already-linked
block `exC3` really does skip it, unchanged and reported. -/
theorem c3_amended_witness :
    processEntry exC3 eC1 = some (exC3, false, [Ev.skipping eC1.old_ref]) :=
  c3_amended exC3 eC1 0 ⟨63, [Char.ofNat 54]⟩ 6 (by decide) (by decide) (by decide)
    (by decide) (by decide)

/-- C4, counterexample.  The claim says that when none of the three insertion
anchors exists the patcher fails with an explicit `NoInsertionPoint` error.
It does not: on `exC4` (no `(attr …)`, no `\n\t\t(fp_`, no `\n\t\t(pad `)
the edit silently proceeds — the reference is renamed, no fragment is
inserted, the change is counted, and no error value exists anywhere in the
patcher's result type. -/
theorem c4_counterexample :
    processEntry exC4 eC1 =
        some (exC4out, true, [Ev.processing (("C1").data) (("C2").data)]) ∧
      containsLit (("(path").data) exC4out = false ∧ exC4out ≠ exC4 := by decide

/-- C4, amended.  The anchor priority is as claimed (after `(attr …)`, else
before the first `\n\t\t(fp_`, else before the first `\n\t\t(pad `), but when
none of the three anchors exists the fragment is silently not inserted: the
block is returned unchanged by the insertion step and the edit still goes
through as a counted change. -/
theorem c4_amended (uuid block : List Char)
    (h1 : firstPosWhere matchAttrAt block 0 = none)
    (h2 : firstIndexOf (("\n\t\t(fp_").data) block = none)
    (h3 : firstIndexOf (("\n\t\t(pad ").data) block = none) :
    insertCrossRef uuid block = block := by
  unfold insertCrossRef
  rw [h1, h2, h3]

/-- C4, witness for the amended theorem, at the anchor-free block of
`exC4`. -/
theorem c4_amended_witness :
    insertCrossRef eC1.sch_uuid (blockAt exC4 0) = blockAt exC4 0 :=
  c4_amended eC1.sch_uuid (blockAt exC4 0) (by decide) (by decide) (by decide)

/-- C5, counterexample.  The claim says a re-run reports every target record
as already linked.  It does not: after the first run renames `C1` to `C2`,
the second run's reference check fails for every block, so the entry matches
nothing — the re-run makes zero changes but prints no skip message at all
(the event list is empty, not `[skipping …]`). -/
theorem c5_counterexample :
    applyMappingCore [eC1] exDoc =
        some (exDoc1, 1, [Ev.processing (("C1").data) (("C2").data)]) ∧
      applyMappingCore [eC1] exDoc1 = some (exDoc1, 0, []) := by decide

/-- C5, amended.  A re-run produces zero additional changes, but not through
the already-linked guard: once the old identifier literal no longer occurs in
the document (it was renamed by the first run), the entry's loop walks every
match, never fires, changes nothing and reports nothing — the record is not
reported as already linked. -/
theorem c5_amended (content : List Char) (e : Entry)
    (hp : ∀ m ∈ findIter content, (parseFloat? m.2.ystr).isSome = true)
    (hc : containsLit (refLit e.old_ref) content = false) :
    processEntry content e = some (content, false, []) := by
  unfold processEntry
  refine loop_no_refmatch content e (findIter content) hp ?_
  intro m _
  by_cases hb : containsLit (refLit e.old_ref) (blockAt content m.1) = true
  · have hinf := (isInfix_of_containsLit hb).trans (blockAt_isInfix content m.1)
    have := containsLit_of_isInfix (refLit_ne_nil e.old_ref) hinf
    rw [hc] at this
    exact absurd this (by simp)
  · simpa using hb

/-- C5, witness for the amended theorem: the second run on the first run's
output `exDoc1` changes nothing and reports nothing. -/
theorem c5_amended_witness :
    processEntry exDoc1 eC1 = some (exDoc1, false, []) :=
  c5_amended exDoc1 eC1 (by decide) (by decide)

/-- C8, counterexample.  The claim says output is produced only when every
edit succeeds or is explicitly skipped.  On `exDoc` with the mapping
`[eMiss, eC1]`, the entry `eMiss` matches no block — it neither succeeds nor
is skipped, and produces no report event — yet the run still produces an
output document reflecting `eC1`'s edit. -/
theorem c8_counterexample :
    applyMappingCore [eMiss, eC1] exDoc =
        some (exDoc1, 1, [Ev.processing (("C1").data) (("C2").data)]) ∧
      exDoc1 ≠ exDoc := by decide

/-- C8, amended.  The patcher always produces an output document (the file is
written unconditionally); there is no structural failure path.  What does
hold is the second half of the claim: when zero edits succeeded the output is
byte-identical to the original document. -/
theorem c8_amended (mapping : List Entry) :
    ∀ (content : List Char) r, applyMappingCore mapping content = some r →
      r.2.1 = 0 → r.1 = content := by
  induction mapping with
  | nil =>
    intro content r h _
    simp only [applyMappingCore, Option.some_inj] at h
    rw [← h]
  | cons e es ih =>
    intro content r h h0
    cases hpe : processEntry content e with
    | none =>
      simp only [applyMappingCore, hpe] at h
      exact Option.noConfusion h
    | some pr =>
      simp only [applyMappingCore, hpe] at h
      obtain ⟨t, ht, hrt⟩ := Option.map_eq_some'.mp h
      have hsum : (if pr.2.1 then 1 else 0) + t.2.1 = 0 := by
        rw [← hrt] at h0
        exact h0
      have hch : pr.2.1 = false := by
        cases hb : pr.2.1 with
        | false => rfl
        | true => rw [hb] at hsum; simp at hsum
      have ht0 : t.2.1 = 0 := by
        rw [hch] at hsum
        simpa using hsum
      have h1 : pr.1 = content := loop_unchanged content e (findIter content) pr hpe hch
      have h2 : t.1 = pr.1 := ih pr.1 t ht ht0
      rw [← hrt]
      simp only []
      rw [h2, h1]

/-- C8, witness for the amended theorem: a run in which no edit succeeded
(the single entry matches nothing) returns the original document. -/
theorem c8_amended_witness :
    applyMappingCore [eMiss] exDoc = some (exDoc, 0, []) ∧
      (exDoc, (0 : Nat), ([] : List Ev)).1 = exDoc :=
  ⟨by decide, c8_amended [eMiss] exDoc (exDoc, 0, []) (by decide) rfl⟩

/-- C6, counterexample.  The claim says every surplus source record is
reported as `unpaired_source`.  In the scenario (source `C1,C2,C3`, target
`C10,C11`, one category) the pairing is `C10↔C1, C11↔C2` as claimed, and the
surplus target report would appear as a no-match line — but the surplus
source record `C3` appears in NO report line: the source prints nothing for
surplus schematic components (only the per-category count line reveals the
imbalance). -/
theorem c6_counterexample :
    createMapping [schC1, schC2, schC3] [pcbC10, pcbC11] =
        ([mkMapEntry .CAP pcbC10 schC1, mkMapEntry .CAP pcbC11 schC2],
          [MapEv.countLine .CAP 3 2,
            MapEv.pairLine (("C10").data) (("C1").data),
            MapEv.pairLine (("C11").data) (("C2").data)]) ∧
      (∀ ev ∈ (createMapping [schC1, schC2, schC3] [pcbC10, pcbC11]).2,
        evMentions (("C3").data) ev = false) := by decide

/-- C6, amended.  Within a category the builder pairs the i-th target (PCB)
record with the i-th source (schematic) record up to the shorter length;
every surplus target record gets a no-match report line; surplus source
records are not reported at all — they are simply absent from both the
pairing and the report. -/
theorem c6_amended (t : FpType) :
    ∀ (pcbL schL : List Comp),
      pairLists t pcbL schL =
        ((pcbL.zip schL).map (fun q => mkMapEntry t q.1 q.2),
          (pcbL.zip schL).map (fun q => MapEv.pairLine q.1.reference q.2.reference) ++
            (pcbL.drop schL.length).map (fun p => MapEv.noMatchLine p.reference)) := by
  intro pcbL
  induction pcbL with
  | nil => intro schL; cases schL <;> rfl
  | cons p ps ih =>
    intro schL
    cases schL with
    | nil => simp [pairLists, ih []]
    | cons s ss => simp [pairLists, ih ss]

/-- C7, counterexample.  The claim says the sort key's first component is the
FULL leading alphabetic run of the identifier.  The source uses only the
first character (`x['reference'][0]`): on `S5` and `SW1` the code's key is
`('S', 5)` vs `('S', 1)` so `SW1` sorts first, while the spec's key
`("S", 5)` vs `("SW", 1)` puts `S5` first — the two orders differ. -/
theorem c7_counterexample :
    sortComps [compS5, compSW1] = [compSW1, compS5] ∧
      specSortComps [compS5, compSW1] = [compS5, compSW1] ∧
      sortComps [compS5, compSW1] ≠ specSortComps [compS5, compSW1] := by decide

/-- C7, amended.  The source sorts by (first character of the identifier,
value of the FIRST digit run, 0 when there are no digits); for identifiers
of the usual letters-then-digits shape this agrees with the claim, and the
claimed tie-break holds: `C` (key `('C', 0)`) sorts before `C7`
(key `('C', 7)`). -/
theorem c7_amended :
    sortComps [compC7, compC] = [compC, compC7] ∧
      codeKey compC = ('C', 0) ∧ codeKey compC7 = ('C', 7) := by decide

end BMS
